import Mathlib

/-!
Verification of the World of Bits game-state engine.

Shallow embedding of the D3.d build of src/src/main.ts (the file contains two
milestone builds concatenated; the first one, D3.d, is the build the line
references of the analysed claims point at).

Modelling conventions:
- JavaScript numbers that hold geographic coordinates are modelled as exact
  rationals; cell indices and token values, which the program only ever
  produces by Math.floor, integer arithmetic and doubling, are modelled as
  integers.
- The Map<CellKey, CellState> structures keyed by the string coordKey(c) are
  modelled as insertion-ordered association lists keyed by the coordinate
  itself; this is faithful because coordKey is injective (the string
  "i,j" determines i and j).
- localStorage is modelled as three typed slots (player, held token, cell
  array).  A slot is `none` when the key is absent; a present slot either
  parses to a value of the expected shape (`Stored.ok`) or throws during
  JSON.parse (`Stored.corrupt`).  JSON.stringify of the saved records never
  produces the empty string, so the truthiness tests `if (p)` of loadState
  coincide with key presence.  JSON round-trips these plain records exactly.
- The luck hash of _luck.ts is not part of the sources; the specification
  treats it as an opaque deterministic oracle `roll(seed) -> [0,1)`, so every
  definition is parametric in `luck : String → ℚ`.
- Rendering (Leaflet rectangles, labels, markers, panning) and DOM status text
  are external collaborators; of the renderer state we keep exactly what the
  game code branches on, namely the key set of cellRects (the active set).
  Calls of the mutating functions to the renderer and to storage are recorded
  as an explicit effect list where a claim is about those calls happening.
-/

namespace WorldOfBits

/-- Cell coordinate, interface CellCoord of main.ts: a row index i and a
column index j. -/
structure CellCoord where
  i : ℤ
  j : ℤ
deriving DecidableEq, Repr

/-- CELL_SIZE = 0.00025 degrees per cell. -/
def CELL_SIZE : ℚ := 1 / 4000

/-- INTERACTION_RADIUS = 3 cells. -/
def INTERACTION_RADIUS : ℤ := 3

/-- TARGET_TOKEN_VALUE = 32 (advisory win threshold, display only). -/
def TARGET_TOKEN_VALUE : ℤ := 32

/-- BASE_TOKEN_PROBABILITY = 0.18, written as the exact rational 18/100. -/
def BASE_TOKEN_PROBABILITY : ℚ := mkRat 18 100

/-- START_LAT = 36.9914. -/
def START_LAT : ℚ := 369914 / 10000

/-- START_LNG = -122.0609. -/
def START_LNG : ℚ := -1220609 / 10000

/-- latToRow of main.ts: Math.floor(lat / CELL_SIZE). -/
def latToRow (lat : ℚ) : ℤ := ⌊lat / CELL_SIZE⌋

/-- lngToCol of main.ts: Math.floor(lng / CELL_SIZE). -/
def lngToCol (lng : ℚ) : ℤ := ⌊lng / CELL_SIZE⌋

/-- latLngToCellCoord of main.ts. -/
def latLngToCellCoord (lat lng : ℚ) : CellCoord :=
  { i := latToRow lat, j := lngToCol lng }

/-- isNearPlayer of main.ts: Chebyshev proximity, both coordinate deltas at
most INTERACTION_RADIUS in absolute value. -/
def isNearPlayer (c player : CellCoord) : Bool :=
  decide (|c.i - player.i| ≤ INTERACTION_RADIUS) &&
    decide (|c.j - player.j| ≤ INTERACTION_RADIUS)

/-- The seed string cell:i,j:token handed to the luck oracle by
baseTokenValue. -/
def cellSeed (c : CellCoord) : String :=
  "cell:" ++ toString c.i ++ "," ++ toString c.j ++ ":token"

/-- baseTokenValue of main.ts: 1 when the luck roll is below
BASE_TOKEN_PROBABILITY, else 0.  Parametric in the opaque luck oracle. -/
def baseTokenValue (luck : String → ℚ) (c : CellCoord) : ℤ :=
  if luck (cellSeed c) < BASE_TOKEN_PROBABILITY then 1 else 0

/-- Model of the JS Map<CellKey, CellState> cellStates: an insertion-ordered
association list from coordinates to token values. -/
abbrev CellMap := List (CellCoord × ℤ)

/-- Map.get: value of the first (in a real Map: only) entry with this key. -/
def mapGet : CellMap → CellCoord → Option ℤ
  | [], _ => none
  | e :: t, k => if e.1 = k then some e.2 else mapGet t k

/-- Map.set: replace the entry with this key in place, or append a new entry
at the end (JS Maps preserve insertion order). -/
def mapSet : CellMap → CellCoord → ℤ → CellMap
  | [], k, v => [(k, v)]
  | e :: t, k, v => if e.1 = k then (k, v) :: t else e :: mapSet t k v

/-- Map.delete: remove the entry with this key. -/
def mapDelete : CellMap → CellCoord → CellMap
  | [], _ => []
  | e :: t, k => if e.1 = k then mapDelete t k else e :: mapDelete t k

/-- A localStorage slot that is present: it either parses back to a value of
the expected shape, or JSON.parse throws on it. -/
inductive Stored (α : Type) where
  | ok (a : α)
  | corrupt
deriving DecidableEq

/-- The three persistence keys written by saveState (STORAGE.PLAYER,
STORAGE.HELD, STORAGE.CELLS); `none` models an absent key. -/
structure Storage where
  player : Option (Stored CellCoord)
  held : Option (Stored (Option ℤ))
  cells : Option (Stored CellMap)
deriving DecidableEq

/-- The game state: the module-level mutable variables of main.ts together
with the storage contents.  activeCells is the key set of the cellRects map
(which cells currently have a rectangle on the map); the rectangles
themselves are renderer state. -/
structure GameState where
  playerCell : CellCoord
  heldToken : Option ℤ
  cellStates : CellMap
  activeCells : List CellCoord
  storage : Storage
deriving DecidableEq

/-- saveState of main.ts: write the player cell, the held token and the
entry list of cellStates to the three storage keys. -/
def saveState (s : GameState) : GameState :=
  { s with
    storage :=
      { player := some (Stored.ok s.playerCell)
        held := some (Stored.ok s.heldToken)
        cells := some (Stored.ok s.cellStates) } }

/-- The catch handler of loadState: cellStates.clear(); heldToken = null.
Note that it does not reset playerCell. -/
def loadCatch (s : GameState) : GameState :=
  { s with cellStates := [], heldToken := none }

/-- loadState of main.ts.  Each key is read independently; a JSON.parse
failure jumps to the catch handler with every assignment made so far kept.
The cells key is rebuilt by clearing the map and re-inserting the saved
entry list. -/
def loadState (s : GameState) : GameState :=
  if s.storage.player = some Stored.corrupt then loadCatch s else
  let s1 := match s.storage.player with
    | some (Stored.ok c) => { s with playerCell := c }
    | _ => s
  if s.storage.held = some Stored.corrupt then loadCatch s1 else
  let s2 := match s.storage.held with
    | some (Stored.ok h) => { s1 with heldToken := h }
    | _ => s1
  let s3 := { s2 with cellStates := [] }
  match s.storage.cells with
  | some (Stored.ok arr) =>
      { s3 with cellStates := arr.foldl (fun m e => mapSet m e.1 e.2) [] }
  | some Stored.corrupt => loadCatch s3
  | none => s3

/-- The state at the top of main.ts before loadState runs: player at the
start cell, empty hand, empty override map, nothing rendered, and (for a
fresh browser profile) empty storage. -/
def initialState : GameState :=
  { playerCell := latLngToCellCoord START_LAT START_LNG
    heldToken := none
    cellStates := []
    activeCells := []
    storage := { player := none, held := none, cells := none } }

/-- getCellValue of main.ts: the override when one is stored, else the
deterministic base value. -/
def getCellValue (luck : String → ℚ) (s : GameState) (c : CellCoord) : ℤ :=
  match mapGet s.cellStates c with
  | some v => v
  | none => baseTokenValue luck c

/-- setCellValue of main.ts (D3.d): delete the override when the new value
equals the base value, else insert/replace it; then refreshCellVisual (pure
rendering) and saveState. -/
def setCellValue (luck : String → ℚ) (s : GameState) (c : CellCoord)
    (value : ℤ) : GameState :=
  let base := baseTokenValue luck c
  let states :=
    if value = base then mapDelete s.cellStates c
    else mapSet s.cellStates c value
  saveState { s with cellStates := states }

/-- handleCellClick of main.ts: the pick-up / drop / craft state machine.
Far cells and invalid transitions only update the status text. -/
def handleCellClick (luck : String → ℚ) (s : GameState) (coord : CellCoord) :
    GameState :=
  if isNearPlayer coord s.playerCell then
    let cellValue := getCellValue luck s coord
    match s.heldToken with
    | none =>
        if cellValue > 0 then
          saveState (setCellValue luck { s with heldToken := some cellValue } coord 0)
        else s
    | some h =>
        if cellValue = 0 then
          saveState { setCellValue luck s coord h with heldToken := none }
        else if cellValue = h then
          saveState { setCellValue luck s coord 0 with heldToken := some (h * 2) }
        else s
  else s

/-- The visible geographic window map.getBounds() reports to
refreshVisibleGrid; an external input of the viewport recomputation. -/
structure Window where
  south : ℚ
  north : ℚ
  west : ℚ
  east : ℚ

/-- An inclusive integer range as a list, lo, lo+1, ..., hi (the i / j loops
of refreshVisibleGrid). -/
def intRange (lo hi : ℤ) : List ℤ :=
  (List.range (hi + 1 - lo).toNat).map (fun n => lo + n)

/-- The coordinate rectangle the nested loops of refreshVisibleGrid walk,
outer row loop, inner column loop. -/
def rectCells (minI maxI minJ maxJ : ℤ) : List CellCoord :=
  (intRange minI maxI).flatMap (fun i => (intRange minJ maxJ).map (fun j => { i := i, j := j }))

/-- The shouldExist set of refreshVisibleGrid: window edges floored against
CELL_SIZE, padded by one cell on every side. -/
def windowRect (w : Window) : List CellCoord :=
  rectCells (⌊w.south / CELL_SIZE⌋ - 1) (⌊w.north / CELL_SIZE⌋ + 1)
    (⌊w.west / CELL_SIZE⌋ - 1) (⌊w.east / CELL_SIZE⌋ + 1)

/-- Result of one refreshVisibleGrid run over the cellRects key set: the new
key set, the keys for which a rectangle was newly created, and the keys whose
rectangle was removed. -/
structure RefreshResult where
  active : List CellCoord
  activated : List CellCoord
  deactivated : List CellCoord
deriving DecidableEq, Repr

/-- refreshVisibleGrid of main.ts (D3.d), restricted to the cellRects key
set, which is the only part of its output the game state logic reads: every
rectangle key in the window rectangle is kept or created, every key outside
it is removed.  Surviving keys keep their Map insertion order and new keys
are appended in loop order.  The D3.d build never touches cellStates here. -/
def refreshVisibleGrid (w : Window) (active : List CellCoord) : RefreshResult :=
  let rect := windowRect w
  let activated := rect.filter (fun c => decide (c ∉ active))
  let deactivated := active.filter (fun c => decide (c ∉ rect))
  { active := active.filter (fun c => decide (c ∈ rect)) ++ activated
    activated := activated
    deactivated := deactivated }

/-- refreshVisibleGrid as a game-state transition: only the active key set
changes; cellStates, heldToken, playerCell and storage are untouched. -/
def refreshGridState (w : Window) (s : GameState) : GameState :=
  { s with activeCells := (refreshVisibleGrid w s.activeCells).active }

/-- Instrumentation of the calls movePlayerToCell makes on its non-trivial
path: marker/pan rendering, a saveState write, a refreshVisibleGrid
recomputation, a status update. -/
inductive Effect where
  | panned
  | saved
  | refreshed
  | statusUpdated
deriving DecidableEq, Repr

/-- movePlayerToCell of main.ts: the self-move guard returns immediately;
otherwise move the player, pan the map, persist, and recompute the visible
grid (against the post-pan window w supplied by the external map). -/
def movePlayerToCell (w : Window) (s : GameState) (next : CellCoord) :
    GameState × List Effect :=
  if next = s.playerCell then (s, [])
  else
    let s1 := { s with playerCell := next }
    let s2 := saveState s1
    let s3 := refreshGridState w s2
    (s3, [Effect.panned, Effect.saved, Effect.refreshed, Effect.statusUpdated])

/-- The cells the watchPosition callback of GeoMovementController.start
passes to onMoveTo for a given feed of raw positions: every update is
converted and delivered, unconditionally. -/
def geoDeliveredCells (feed : List (ℚ × ℚ)) : List CellCoord :=
  feed.map (fun pos => latLngToCellCoord pos.1 pos.2)

/-- The geolocation pipeline: the controller delivers every converted cell to
movePlayerToCell (its onMoveTo callback in the facade wiring). -/
def runGeoFeed (w : Window) (s : GameState) (feed : List (ℚ × ℚ)) : GameState :=
  (geoDeliveredCells feed).foldl (fun st c => (movePlayerToCell w st c).1) s

/-- MovementMode of main.ts. -/
inductive MovementMode where
  | geolocation
  | buttons
deriving DecidableEq, Repr

/-- The qsMode / savedMode validation of main.ts: only the two exact strings
are accepted. -/
def parseMovementMode (raw : Option String) : Option MovementMode :=
  if raw = some "geolocation" then some MovementMode.geolocation
  else if raw = some "buttons" then some MovementMode.buttons
  else none

/-- initialMode of main.ts: query string first, then the saved mode, then the
geolocation default. -/
def initialMovementMode (qs saved : Option String) : MovementMode :=
  ((parseMovementMode qs).orElse (fun _ => parseMovementMode saved)).getD
    MovementMode.geolocation

/-- The states reachable by the program from a fresh profile: the initial
state followed by any sequence of clicks, movement callbacks, viewport
recomputations, loads and saves. -/
inductive Reachable (luck : String → ℚ) : GameState → Prop where
  | init : Reachable luck initialState
  | click (s : GameState) (c : CellCoord) : Reachable luck s →
      Reachable luck (handleCellClick luck s c)
  | move (w : Window) (s : GameState) (c : CellCoord) : Reachable luck s →
      Reachable luck (movePlayerToCell w s c).1
  | refresh (w : Window) (s : GameState) : Reachable luck s →
      Reachable luck (refreshGridState w s)
  | load (s : GameState) : Reachable luck s → Reachable luck (loadState s)
  | save (s : GameState) : Reachable luck s → Reachable luck (saveState s)


/-- A luck oracle that always rolls 0: every base value is 1. -/
def luckZero : String → ℚ := fun _ => 0

/-- A luck oracle that always rolls 1: every base value is 0. -/
def luckOne : String → ℚ := fun _ => 1

/-- A small concrete probe state used by the witness theorems: player parked
at the origin cell, nothing held, nothing overridden, empty storage. -/
def probeState : GameState :=
  { playerCell := { i := 0, j := 0 }
    heldToken := none
    cellStates := []
    activeCells := []
    storage := { player := none, held := none, cells := none } }

/-- A value the power-of-two invariant allows: empty, or a power of two
produced by repeated doubling of a base token. -/
def isTokenLike (v : ℤ) : Prop := v = 0 ∨ ∃ k : ℕ, v = 2 ^ k

/-- A sequence of clicks, each performed with the player standing at the
cell given by the first component (movement between clicks only changes the
player cell) and clicking the cell given by the second component. -/
def applyClicks (luck : String → ℚ) (ops : List (CellCoord × CellCoord))
    (s : GameState) : GameState :=
  ops.foldl (fun st op => handleCellClick luck { st with playerCell := op.1 } op.2) s

/-- Probe state with the origin cell currently rendered. -/
def probeActiveState : GameState :=
  { probeState with activeCells := [{ i := 0, j := 0 }] }

/-- A probe window parked one degree north-east: its rectangle misses the
origin cell. -/
def probeWindowOut : Window :=
  { south := 1, north := 1, west := 1, east := 1 }

/-- A probe window parked on the origin: its rectangle contains the origin
cell. -/
def probeWindowIn : Window :=
  { south := 0, north := 0, west := 0, east := 0 }

/-- Probe state whose storage holds a valid player key and a corrupt
held-token key. -/
def corruptProbeState : GameState :=
  { probeState with storage :=
      { player := some (Stored.ok { i := 5, j := 7 })
        held := some Stored.corrupt
        cells := none } }

/-- Keys of the association-list map, in insertion order. -/
def mapKeys (m : CellMap) : List CellCoord := m.map Prod.fst

theorem mapKeys_cons (a : CellCoord × ℤ) (t : CellMap) :
    mapKeys (a :: t) = a.1 :: mapKeys t := rfl

theorem mem_mapKeys {k : CellCoord} {m : CellMap} :
    k ∈ mapKeys m ↔ ∃ v, (k, v) ∈ m := by
  constructor
  · intro h
    rcases List.mem_map.mp h with ⟨⟨k1, v1⟩, he, hk⟩
    cases hk
    exact ⟨v1, he⟩
  · rintro ⟨v, hv⟩
    exact List.mem_map.mpr ⟨(k, v), hv, rfl⟩

theorem mapGet_mapSet (m : CellMap) (k : CellCoord) (v : ℤ) (q : CellCoord) :
    mapGet (mapSet m k v) q = if q = k then some v else mapGet m q := by
  induction m with
  | nil =>
      by_cases h : q = k
      · simp [mapSet, mapGet, h]
      · have h2 : ¬ k = q := fun hh => h hh.symm
        simp [mapSet, mapGet, h, h2]
  | cons e t ih =>
      by_cases he : e.1 = k
      · by_cases hq : q = k
        · simp [mapSet, mapGet, he, hq]
        · have h2 : ¬ k = q := fun hh => hq hh.symm
          simp [mapSet, mapGet, he, hq, h2]
      · by_cases hq : e.1 = q
        · have h2 : ¬ q = k := fun hh => he (hq.symm ▸ hh)
          simp [mapSet, mapGet, he, hq, h2]
        · simp [mapSet, mapGet, he, hq, ih]

theorem mapGet_mapDelete (m : CellMap) (k : CellCoord) (q : CellCoord) :
    mapGet (mapDelete m k) q = if q = k then none else mapGet m q := by
  induction m with
  | nil => simp [mapDelete, mapGet]
  | cons e t ih =>
      by_cases he : e.1 = k
      · by_cases hq : q = k
        · subst hq
          simp [mapDelete, mapGet, he, ih]
        · have h2 : ¬ k = q := fun hh => hq hh.symm
          simp [mapDelete, mapGet, he, hq, h2, ih]
      · by_cases hq : e.1 = q
        · have h2 : ¬ q = k := fun hh => he (hq.trans hh)
          simp [mapDelete, mapGet, he, hq, h2]
        · simp [mapDelete, mapGet, he, hq, ih]

theorem mem_mapSet {e : CellCoord × ℤ} {m : CellMap} {k : CellCoord} {v : ℤ}
    (h : e ∈ mapSet m k v) : e ∈ m ∨ e = (k, v) := by
  induction m with
  | nil =>
      simp [mapSet] at h
      exact Or.inr h
  | cons a t ih =>
      by_cases ha : a.1 = k
      · simp only [mapSet, if_pos ha] at h
        rcases List.mem_cons.mp h with h1 | h1
        · exact Or.inr h1
        · exact Or.inl (List.mem_cons_of_mem a h1)
      · simp only [mapSet, if_neg ha] at h
        rcases List.mem_cons.mp h with h1 | h1
        · exact Or.inl (h1 ▸ List.mem_cons_self a t)
        · rcases ih h1 with h2 | h2
          · exact Or.inl (List.mem_cons_of_mem a h2)
          · exact Or.inr h2

theorem mem_mapDelete {e : CellCoord × ℤ} {m : CellMap} {k : CellCoord}
    (h : e ∈ mapDelete m k) : e ∈ m := by
  induction m with
  | nil =>
      simp [mapDelete] at h
  | cons a t ih =>
      by_cases ha : a.1 = k
      · simp only [mapDelete, if_pos ha] at h
        exact List.mem_cons_of_mem a (ih h)
      · simp only [mapDelete, if_neg ha] at h
        rcases List.mem_cons.mp h with h1 | h1
        · exact h1 ▸ List.mem_cons_self a t
        · exact List.mem_cons_of_mem a (ih h1)

theorem mapKeys_mapSet_nodup {m : CellMap} {k : CellCoord} {v : ℤ}
    (h : (mapKeys m).Nodup) : (mapKeys (mapSet m k v)).Nodup := by
  induction m with
  | nil => simp [mapSet, mapKeys]
  | cons a t ih =>
      rw [mapKeys_cons, List.nodup_cons] at h
      by_cases ha : a.1 = k
      · have hrw : mapSet (a :: t) k v = (k, v) :: t := by
          simp [mapSet, ha]
        rw [hrw, mapKeys_cons, List.nodup_cons]
        exact ⟨ha ▸ h.1, h.2⟩
      · have hrw : mapSet (a :: t) k v = a :: mapSet t k v := by
          simp [mapSet, ha]
        rw [hrw, mapKeys_cons, List.nodup_cons]
        refine ⟨?_, ih h.2⟩
        intro hmem
        rcases mem_mapKeys.mp hmem with ⟨w, hw⟩
        rcases mem_mapSet hw with h2 | h2
        · exact h.1 (mem_mapKeys.mpr ⟨w, h2⟩)
        · exact ha (congrArg Prod.fst h2)

theorem mapKeys_mapDelete_nodup {m : CellMap} {k : CellCoord}
    (h : (mapKeys m).Nodup) : (mapKeys (mapDelete m k)).Nodup := by
  induction m with
  | nil => simp [mapDelete, mapKeys]
  | cons a t ih =>
      rw [mapKeys_cons, List.nodup_cons] at h
      by_cases ha : a.1 = k
      · have hrw : mapDelete (a :: t) k = mapDelete t k := by
          simp [mapDelete, ha]
        rw [hrw]
        exact ih h.2
      · have hrw : mapDelete (a :: t) k = a :: mapDelete t k := by
          simp [mapDelete, ha]
        rw [hrw, mapKeys_cons, List.nodup_cons]
        refine ⟨?_, ih h.2⟩
        intro hmem
        rcases mem_mapKeys.mp hmem with ⟨w, hw⟩
        exact h.1 (mem_mapKeys.mpr ⟨w, mem_mapDelete hw⟩)

theorem mapSet_append_of_not_mem {m : CellMap} {k : CellCoord} (v : ℤ)
    (h : k ∉ mapKeys m) : mapSet m k v = m ++ [(k, v)] := by
  induction m with
  | nil => simp [mapSet]
  | cons a t ih =>
      rw [mapKeys_cons] at h
      have ha : ¬ a.1 = k := by
        intro h2
        exact h (by simp [h2])
      have ht : k ∉ mapKeys t := by
        intro h2
        exact h (by simp [h2])
      simp [mapSet, ha, ih ht]

theorem foldl_mapSet_restore (m : CellMap) :
    ∀ acc : CellMap, (mapKeys (acc ++ m)).Nodup →
      m.foldl (fun a e => mapSet a e.1 e.2) acc = acc ++ m := by
  induction m with
  | nil =>
      intro acc _
      simp
  | cons e t ih =>
      intro acc hnd
      have hsplit : mapKeys (acc ++ e :: t) = mapKeys acc ++ e.1 :: mapKeys t := by
        simp [mapKeys]
      rw [hsplit] at hnd
      have hk : e.1 ∉ mapKeys acc := by
        rcases List.nodup_append.mp hnd with ⟨-, -, hdisj⟩
        intro hmem
        exact (hdisj hmem) (List.mem_cons_self _ _)
      have hstep : mapSet acc e.1 e.2 = acc ++ [e] := by
        rw [mapSet_append_of_not_mem e.2 hk]
      have hnd2 : (mapKeys ((acc ++ [e]) ++ t)).Nodup := by
        simpa [mapKeys] using hnd
      calc (e :: t).foldl (fun a x => mapSet a x.1 x.2) acc
          = t.foldl (fun a x => mapSet a x.1 x.2) (mapSet acc e.1 e.2) := by
            simp [List.foldl_cons]
        _ = t.foldl (fun a x => mapSet a x.1 x.2) (acc ++ [e]) := by rw [hstep]
        _ = (acc ++ [e]) ++ t := ih (acc ++ [e]) hnd2
        _ = acc ++ e :: t := by simp

theorem cellStates_saveState (s : GameState) :
    (saveState s).cellStates = s.cellStates := rfl

theorem heldToken_saveState (s : GameState) :
    (saveState s).heldToken = s.heldToken := rfl

theorem playerCell_saveState (s : GameState) :
    (saveState s).playerCell = s.playerCell := rfl

theorem cellStates_setCellValue (luck : String → ℚ) (s : GameState)
    (c : CellCoord) (v : ℤ) :
    (setCellValue luck s c v).cellStates =
      if v = baseTokenValue luck c then mapDelete s.cellStates c
      else mapSet s.cellStates c v := rfl

theorem heldToken_setCellValue (luck : String → ℚ) (s : GameState)
    (c : CellCoord) (v : ℤ) :
    (setCellValue luck s c v).heldToken = s.heldToken := rfl

theorem playerCell_setCellValue (luck : String → ℚ) (s : GameState)
    (c : CellCoord) (v : ℤ) :
    (setCellValue luck s c v).playerCell = s.playerCell := rfl

/-- After setCellValue the observable value of the written cell is exactly
the written value, and every other cell is unchanged: in the delete branch
the base value shows through and equals the written value. -/
theorem getCellValue_setCellValue (luck : String → ℚ) (s : GameState)
    (c : CellCoord) (v : ℤ) (q : CellCoord) :
    getCellValue luck (setCellValue luck s c v) q =
      if q = c then v else getCellValue luck s q := by
  by_cases hv : v = baseTokenValue luck c
  · simp only [getCellValue, cellStates_setCellValue, if_pos hv, mapGet_mapDelete]
    by_cases hq : q = c
    · simp [hq, hv]
    · simp [hq]
  · simp only [getCellValue, cellStates_setCellValue, if_neg hv, mapGet_mapSet]
    by_cases hq : q = c
    · simp [hq]
    · simp [hq]

theorem getCellValue_saveState (luck : String → ℚ) (s : GameState)
    (q : CellCoord) : getCellValue luck (saveState s) q = getCellValue luck s q := rfl


/-- C4: out-of-range rejection.  Clicking any coordinate whose Chebyshev
distance from the player cell exceeds the interaction radius leaves the game
state (override store, held token, and everything else) unchanged. -/
theorem out_of_range_rejection (luck : String → ℚ) (s : GameState) (c : CellCoord)
    (hfar : INTERACTION_RADIUS < max |c.i - s.playerCell.i| |c.j - s.playerCell.j|) :
    handleCellClick luck s c = s := by
  have hnear : isNearPlayer c s.playerCell = false := by
    rcases lt_max_iff.mp hfar with h | h
    · simp [isNearPlayer, not_le.mpr h]
    · simp [isNearPlayer, not_le.mpr h]
  simp [handleCellClick, hnear]

/-- Witness for C4: at the probe state, a cell at Chebyshev distance 4 from
the player is rejected without any mutation. -/
theorem out_of_range_rejection_witness :
    INTERACTION_RADIUS <
      max |({ i := 4, j := 0 } : CellCoord).i - probeState.playerCell.i|
        |({ i := 4, j := 0 } : CellCoord).j - probeState.playerCell.j| ∧
    handleCellClick luckOne probeState { i := 4, j := 0 } = probeState :=
  ⟨by decide, out_of_range_rejection luckOne probeState { i := 4, j := 0 } (by decide)⟩

/-- C1: the crafting state machine transition table of handleCellClick, for
every nearby cell.  Writing v for the current cell value: an empty hand picks
up a positive v (hand becomes v, cell becomes 0) and does nothing on v = 0; a
hand holding h drops onto v = 0 (cell becomes h, hand empties), crafts on a
matching nonzero v = h (cell becomes 0, hand becomes h * 2; the v = 0 test of
the code precedes the v = h test, which resolves the overlap of the two
clauses at h = v = 0 in favour of the drop), and rejects a mismatched
positive v with no state change. -/
theorem crafting_transition_table (luck : String → ℚ) (s : GameState)
    (c : CellCoord) (hnear : isNearPlayer c s.playerCell = true) :
    (s.heldToken = none → 0 < getCellValue luck s c →
      (handleCellClick luck s c).heldToken = some (getCellValue luck s c) ∧
      getCellValue luck (handleCellClick luck s c) c = 0) ∧
    (s.heldToken = none → getCellValue luck s c = 0 →
      handleCellClick luck s c = s) ∧
    (∀ h : ℤ, s.heldToken = some h → getCellValue luck s c = 0 →
      getCellValue luck (handleCellClick luck s c) c = h ∧
      (handleCellClick luck s c).heldToken = none) ∧
    (∀ h : ℤ, s.heldToken = some h → getCellValue luck s c = h →
      getCellValue luck s c ≠ 0 →
      getCellValue luck (handleCellClick luck s c) c = 0 ∧
      (handleCellClick luck s c).heldToken = some (h * 2)) ∧
    (∀ h : ℤ, s.heldToken = some h → 0 < getCellValue luck s c →
      getCellValue luck s c ≠ h → handleCellClick luck s c = s) := by
  refine ⟨?_, ?_, ?_, ?_, ?_⟩
  · intro hheld hv
    have hcl : handleCellClick luck s c =
        saveState (setCellValue luck
          { s with heldToken := some (getCellValue luck s c) } c 0) := by
      simp [handleCellClick, hnear, hheld, hv]
    rw [hcl]
    refine ⟨rfl, ?_⟩
    rw [getCellValue_saveState, getCellValue_setCellValue]
    simp
  · intro hheld hv
    have hv2 : ¬ (0 < getCellValue luck s c) := by omega
    simp [handleCellClick, hnear, hheld, hv2]
  · intro h hheld hv
    have hcl : handleCellClick luck s c =
        saveState { setCellValue luck s c h with heldToken := none } := by
      simp [handleCellClick, hnear, hheld, hv]
    rw [hcl]
    constructor
    · have hsame : getCellValue luck
          (saveState { setCellValue luck s c h with heldToken := none }) c =
          getCellValue luck (setCellValue luck s c h) c := rfl
      rw [hsame, getCellValue_setCellValue]
      simp
    · rfl
  · intro h hheld hv hv0
    have hcl : handleCellClick luck s c =
        saveState { setCellValue luck s c 0 with heldToken := some (h * 2) } := by
      simp [handleCellClick, hnear, hheld, hv, hv0]
      intro h0
      exact absurd h0 (hv ▸ hv0)
    rw [hcl]
    constructor
    · have hsame : getCellValue luck
          (saveState { setCellValue luck s c 0 with heldToken := some (h * 2) }) c =
          getCellValue luck (setCellValue luck s c 0) c := rfl
      rw [hsame, getCellValue_setCellValue]
      simp
    · rfl
  · intro h hheld hv hvh
    have hv0 : getCellValue luck s c ≠ 0 := by omega
    simp [handleCellClick, hnear, hheld, hv0, hvh]

/-- Witness for C1: at the probe state with the all-token oracle, the origin
cell holds base value 1; clicking it picks the token up (hand 1, cell 0). -/
theorem crafting_transition_table_witness :
    isNearPlayer { i := 0, j := 0 } probeState.playerCell = true ∧
    (handleCellClick luckZero probeState { i := 0, j := 0 }).heldToken =
      some (getCellValue luckZero probeState { i := 0, j := 0 }) ∧
    getCellValue luckZero
      (handleCellClick luckZero probeState { i := 0, j := 0 }) { i := 0, j := 0 } = 0 :=
  ⟨by decide,
    ((crafting_transition_table luckZero probeState { i := 0, j := 0 }
      (by decide)).1 rfl (by decide)).1,
    ((crafting_transition_table luckZero probeState { i := 0, j := 0 }
      (by decide)).1 rfl (by decide)).2⟩


theorem isTokenLike_iff (v : ℤ) :
    isTokenLike v ↔ v = 0 ∨ ∃ k : ℕ, v = 2 ^ k := Iff.rfl

theorem getCellValue_update_player (luck : String → ℚ) (s : GameState)
    (p : CellCoord) (c : CellCoord) :
    getCellValue luck { s with playerCell := p } c = getCellValue luck s c := rfl

theorem getCellValue_update_player_held (luck : String → ℚ) (s : GameState)
    (p : CellCoord) (h : Option ℤ) (c : CellCoord) :
    getCellValue luck { s with playerCell := p, heldToken := h } c =
      getCellValue luck s c := rfl

theorem getCellValue_update_held (luck : String → ℚ) (s : GameState)
    (h : Option ℤ) (c : CellCoord) :
    getCellValue luck { s with heldToken := h } c =
      getCellValue luck s c := rfl

theorem refresh_active_eq (w : Window) (A : List CellCoord) :
    (refreshVisibleGrid w A).active =
      A.filter (fun c => decide (c ∈ windowRect w)) ++
        (windowRect w).filter (fun c => decide (c ∉ A)) := rfl

theorem refresh_activated_eq (w : Window) (A : List CellCoord) :
    (refreshVisibleGrid w A).activated =
      (windowRect w).filter (fun c => decide (c ∉ A)) := rfl

theorem refresh_deactivated_eq (w : Window) (A : List CellCoord) :
    (refreshVisibleGrid w A).deactivated =
      A.filter (fun c => decide (c ∉ windowRect w)) := rfl

/-- A key is rendered after a refreshVisibleGrid run exactly when it lies in
the window rectangle: surviving keys were already in the rectangle and the
missing rectangle keys were created. -/
theorem mem_refresh_active {w : Window} {A : List CellCoord} {c : CellCoord} :
    c ∈ (refreshVisibleGrid w A).active ↔ c ∈ windowRect w := by
  rw [refresh_active_eq]
  simp only [List.mem_append, List.mem_filter, decide_eq_true_eq]
  constructor
  · rintro (⟨-, h⟩ | ⟨h, -⟩) <;> exact h
  · intro h
    by_cases hA : c ∈ A
    · exact Or.inl ⟨hA, h⟩
    · exact Or.inr ⟨h, hA⟩

theorem nodup_setCellValue (luck : String → ℚ) {s : GameState}
    (h : (mapKeys s.cellStates).Nodup) (c : CellCoord) (v : ℤ) :
    (mapKeys (setCellValue luck s c v).cellStates).Nodup := by
  rw [cellStates_setCellValue]
  by_cases hb : v = baseTokenValue luck c
  · rw [if_pos hb]
    exact mapKeys_mapDelete_nodup h
  · rw [if_neg hb]
    exact mapKeys_mapSet_nodup h

/-- The override map handleCellClick leaves behind is the old one, or the old
one with one setCellValue write at the clicked cell. -/
theorem handleCellClick_cellStates (luck : String → ℚ) (s : GameState)
    (c : CellCoord) :
    (handleCellClick luck s c).cellStates = s.cellStates ∨
    ∃ v : ℤ, (handleCellClick luck s c).cellStates =
      (setCellValue luck s c v).cellStates := by
  by_cases hn : isNearPlayer c s.playerCell = true
  · cases hh : s.heldToken with
    | none =>
        by_cases hv : 0 < getCellValue luck s c
        · right
          refine ⟨0, ?_⟩
          simp [handleCellClick, hn, hh, hv, saveState, setCellValue]
        · left
          simp [handleCellClick, hn, hh, hv]
    | some h =>
        by_cases hv : getCellValue luck s c = 0
        · right
          refine ⟨h, ?_⟩
          simp [handleCellClick, hn, hh, hv, saveState, setCellValue]
        · by_cases hvh : getCellValue luck s c = h
          · right
            refine ⟨0, ?_⟩
            have hz : ¬ (h = 0) := fun h0 => hv (hvh.trans h0)
            simp [handleCellClick, hn, hh, hv, hvh, hz, saveState, setCellValue]
          · left
            simp [handleCellClick, hn, hh, hv, hvh]
  · left
    have hn2 : isNearPlayer c s.playerCell = false := by
      cases hb : isNearPlayer c s.playerCell
      · rfl
      · exact absurd hb hn
    simp [handleCellClick, hn2]

theorem cellStates_refreshGridState (w : Window) (s : GameState) :
    (refreshGridState w s).cellStates = s.cellStates := rfl

theorem cellStates_movePlayerToCell (w : Window) (s : GameState) (c : CellCoord) :
    ((movePlayerToCell w s c).1).cellStates = s.cellStates := by
  by_cases hc : c = s.playerCell
  · simp [movePlayerToCell, hc]
  · simp [movePlayerToCell, hc, refreshGridState, saveState]

theorem nodup_foldl_mapSet (arr : CellMap) :
    ∀ acc : CellMap, (mapKeys acc).Nodup →
      (mapKeys (arr.foldl (fun m e => mapSet m e.1 e.2) acc)).Nodup := by
  induction arr with
  | nil =>
      intro acc h
      simpa using h
  | cons e t ih =>
      intro acc h
      simpa [List.foldl_cons] using ih (mapSet acc e.1 e.2) (mapKeys_mapSet_nodup h)

/-- loadState rebuilds the override map either empty or as a re-insertion
fold of some saved entry list into an empty map. -/
theorem cellStates_loadState (s : GameState) :
    (loadState s).cellStates = [] ∨
    ∃ arr : CellMap, (loadState s).cellStates =
      arr.foldl (fun m e => mapSet m e.1 e.2) [] := by
  rcases hp : s.storage.player with _ | (pc | _) <;>
    rcases hh : s.storage.held with _ | (hl | _) <;>
      rcases hc : s.storage.cells with _ | (arr | _) <;>
        simp [loadState, loadCatch, hp, hh, hc]

/-- Every reachable override map has pairwise distinct keys (it faithfully
models a JS Map). -/
theorem nodup_reachable (luck : String → ℚ) {s : GameState}
    (h : Reachable luck s) : (mapKeys s.cellStates).Nodup := by
  induction h with
  | init => simp [initialState, mapKeys]
  | click s c _ ih =>
      rcases handleCellClick_cellStates luck s c with hcs | ⟨v, hcs⟩
      · rw [hcs]
        exact ih
      · rw [hcs]
        exact nodup_setCellValue luck ih c v
  | move w s c _ ih =>
      rw [cellStates_movePlayerToCell]
      exact ih
  | refresh w s _ ih =>
      rw [cellStates_refreshGridState]
      exact ih
  | load s _ ih =>
      rcases cellStates_loadState s with hcs | ⟨arr, hcs⟩
      · rw [hcs]
        simp [mapKeys]
      · rw [hcs]
        exact nodup_foldl_mapSet arr [] (by simp [mapKeys])
  | save s _ ih =>
      rw [cellStates_saveState]
      exact ih

theorem floor_start_lat : ⌊START_LAT / CELL_SIZE⌋ = (147965 : ℤ) := by
  have h1 : START_LAT / CELL_SIZE = 1479656 / 10 := by
    rw [START_LAT, CELL_SIZE]
    norm_num
  rw [h1, Int.floor_eq_iff]
  constructor <;> norm_num

theorem floor_start_lng : ⌊START_LNG / CELL_SIZE⌋ = (-488244 : ℤ) := by
  have h1 : START_LNG / CELL_SIZE = -4882436 / 10 := by
    rw [START_LNG, CELL_SIZE]
    norm_num
  rw [h1, Int.floor_eq_iff]
  constructor <;> norm_num

theorem initialState_playerCell :
    initialState.playerCell = { i := 147965, j := -488244 } := by
  show latLngToCellCoord START_LAT START_LNG = _
  rw [latLngToCellCoord, latToRow, lngToCol, floor_start_lat, floor_start_lng]

theorem latLngToCellCoord_zero :
    latLngToCellCoord 0 0 = { i := 0, j := 0 } := by
  simp [latLngToCellCoord, latToRow, lngToCol]

theorem floor_one_div_cell : ⌊(1 : ℚ) / CELL_SIZE⌋ = (4000 : ℤ) := by
  have h1 : (1 : ℚ) / CELL_SIZE = 4000 := by
    rw [CELL_SIZE]
    norm_num
  rw [h1, Int.floor_eq_iff]
  constructor <;> norm_num

theorem windowRect_out_eval :
    windowRect probeWindowOut = rectCells 3999 4001 3999 4001 := by
  rw [windowRect]
  have hs : probeWindowOut.south = 1 := rfl
  have hn : probeWindowOut.north = 1 := rfl
  have hw : probeWindowOut.west = 1 := rfl
  have he : probeWindowOut.east = 1 := rfl
  rw [hs, hn, hw, he, floor_one_div_cell]
  norm_num

theorem windowRect_in_eval :
    windowRect probeWindowIn = rectCells (-1) 1 (-1) 1 := by
  rw [windowRect]
  have hs : probeWindowIn.south = 0 := rfl
  have hn : probeWindowIn.north = 0 := rfl
  have hw : probeWindowIn.west = 0 := rfl
  have he : probeWindowIn.east = 0 := rfl
  rw [hs, hn, hw, he]
  norm_num

theorem origin_not_mem_rect_out :
    ({ i := 0, j := 0 } : CellCoord) ∉ windowRect probeWindowOut := by
  rw [windowRect_out_eval]
  decide

theorem origin_mem_rect_in :
    ({ i := 0, j := 0 } : CellCoord) ∈ windowRect probeWindowIn := by
  rw [windowRect_in_eval]
  decide


/-- C2: override-store minimality.  Starting from an empty override store,
after any sequence of setCellValue calls every stored entry differs from the
base value of its key; a single setCellValue removes the entry when the
written value equals the base value and stores the value otherwise; and
getCellValue returns the stored override when one exists, else the base
value. -/
theorem override_store_minimality (luck : String → ℚ) (s0 : GameState)
    (hempty : s0.cellStates = []) (ops : List (CellCoord × ℤ)) :
    (∀ e ∈ (ops.foldl (fun s op => setCellValue luck s op.1 op.2) s0).cellStates,
      e.2 ≠ baseTokenValue luck e.1) ∧
    (∀ (s : GameState) (c : CellCoord) (v : ℤ),
      (v = baseTokenValue luck c →
        mapGet (setCellValue luck s c v).cellStates c = none) ∧
      (v ≠ baseTokenValue luck c →
        mapGet (setCellValue luck s c v).cellStates c = some v)) ∧
    (∀ (s : GameState) (c : CellCoord),
      (∀ v, mapGet s.cellStates c = some v → getCellValue luck s c = v) ∧
      (mapGet s.cellStates c = none →
        getCellValue luck s c = baseTokenValue luck c)) := by
  refine ⟨?_, ?_, ?_⟩
  · have main : ∀ (l : List (CellCoord × ℤ)) (s : GameState),
        (∀ e ∈ s.cellStates, e.2 ≠ baseTokenValue luck e.1) →
        ∀ e ∈ (l.foldl (fun s op => setCellValue luck s op.1 op.2) s).cellStates,
          e.2 ≠ baseTokenValue luck e.1 := by
      intro l
      induction l with
      | nil =>
          intro s hs
          simpa using hs
      | cons op t ih =>
          intro s hs
          simp only [List.foldl_cons]
          apply ih
          intro e he
          rw [cellStates_setCellValue] at he
          by_cases hb : op.2 = baseTokenValue luck op.1
          · rw [if_pos hb] at he
            exact hs e (mem_mapDelete he)
          · rw [if_neg hb] at he
            rcases mem_mapSet he with h1 | h1
            · exact hs e h1
            · rw [h1]
              simpa using hb
    apply main ops s0
    rw [hempty]
    simp
  · intro s c v
    constructor
    · intro hb
      rw [cellStates_setCellValue, if_pos hb, mapGet_mapDelete]
      simp
    · intro hb
      rw [cellStates_setCellValue, if_neg hb, mapGet_mapSet]
      simp
  · intro s c
    constructor
    · intro v hv
      simp [getCellValue, hv]
    · intro hv
      simp [getCellValue, hv]

/-- Witness for C2: writing value 5 into the origin cell of the probe state
(base value 0 under the all-empty oracle) leaves a store whose single entry
differs from its base value. -/
theorem override_store_minimality_witness :
    probeState.cellStates = [] ∧
    (({ i := 0, j := 0 }, 5) : CellCoord × ℤ) ∈
      (([({ i := 0, j := 0 }, 5)] : List (CellCoord × ℤ)).foldl
        (fun s op => setCellValue luckOne s op.1 op.2) probeState).cellStates ∧
    (5 : ℤ) ≠ baseTokenValue luckOne { i := 0, j := 0 } := by
  refine ⟨rfl, by decide, ?_⟩
  exact (override_store_minimality luckOne probeState rfl
    [({ i := 0, j := 0 }, 5)]).1 ({ i := 0, j := 0 }, 5) (by decide)

/-- C3: visibility independence.  The viewport recomputation never mutates
the override store, so a cell that is rendered, scrolled out of view by one
recomputation (a window whose rectangle misses it) and brought back by a
later one (a window whose rectangle contains it) reads the same getCellValue
as before the deactivation. -/
theorem visibility_independence (luck : String → ℚ) (s : GameState)
    (c : CellCoord) (w1 w2 : Window)
    (_hactive : c ∈ s.activeCells)
    (hout : c ∉ windowRect w1)
    (hin : c ∈ windowRect w2) :
    (refreshGridState w1 s).cellStates = s.cellStates ∧
    c ∉ (refreshGridState w1 s).activeCells ∧
    c ∈ (refreshGridState w2 (refreshGridState w1 s)).activeCells ∧
    getCellValue luck (refreshGridState w2 (refreshGridState w1 s)) c =
      getCellValue luck s c := by
  refine ⟨rfl, ?_, ?_, rfl⟩
  · intro hmem
    exact hout (mem_refresh_active.mp hmem)
  · exact mem_refresh_active.mpr hin

/-- Witness for C3: the rendered origin cell is deactivated by the far probe
window and reactivated by the origin probe window, with its value intact. -/
theorem visibility_independence_witness :
    ({ i := 0, j := 0 } : CellCoord) ∈ probeActiveState.activeCells ∧
    ({ i := 0, j := 0 } : CellCoord) ∉
      (refreshGridState probeWindowOut probeActiveState).activeCells ∧
    ({ i := 0, j := 0 } : CellCoord) ∈
      (refreshGridState probeWindowIn
        (refreshGridState probeWindowOut probeActiveState)).activeCells ∧
    getCellValue luckOne
      (refreshGridState probeWindowIn
        (refreshGridState probeWindowOut probeActiveState)) { i := 0, j := 0 } =
      getCellValue luckOne probeActiveState { i := 0, j := 0 } := by
  have h := visibility_independence luckOne probeActiveState { i := 0, j := 0 }
    probeWindowOut probeWindowIn (by decide) origin_not_mem_rect_out
    origin_mem_rect_in
  exact ⟨by decide, h.2.1, h.2.2.1, h.2.2.2⟩

/-- C9: viewport idempotence.  Running refreshVisibleGrid a second time with
an unchanged window activates nothing, deactivates nothing, and leaves the
active key set exactly as the first run left it. -/
theorem viewport_idempotence (w : Window) (A : List CellCoord) :
    (refreshVisibleGrid w (refreshVisibleGrid w A).active).activated = [] ∧
    (refreshVisibleGrid w (refreshVisibleGrid w A).active).deactivated = [] ∧
    (refreshVisibleGrid w (refreshVisibleGrid w A).active).active =
      (refreshVisibleGrid w A).active := by
  have hsub : ∀ x ∈ (refreshVisibleGrid w A).active, x ∈ windowRect w :=
    fun x hx => mem_refresh_active.mp hx
  have hsup : ∀ x ∈ windowRect w, x ∈ (refreshVisibleGrid w A).active :=
    fun x hx => mem_refresh_active.mpr hx
  have h1 : (windowRect w).filter
      (fun c => decide (c ∉ (refreshVisibleGrid w A).active)) = [] := by
    rw [List.filter_eq_nil_iff]
    intro a ha
    simp only [decide_eq_true_eq, not_not]
    exact hsup a ha
  have h2 : ((refreshVisibleGrid w A).active).filter
      (fun c => decide (c ∈ windowRect w)) = (refreshVisibleGrid w A).active := by
    rw [List.filter_eq_self]
    intro a ha
    simp only [decide_eq_true_eq]
    exact hsub a ha
  refine ⟨?_, ?_, ?_⟩
  · rw [refresh_activated_eq, h1]
  · rw [refresh_deactivated_eq, List.filter_eq_nil_iff]
    intro a ha
    simp only [decide_eq_true_eq, not_not]
    exact hsub a ha
  · rw [refresh_active_eq, h1, h2, List.append_nil]

/-- C10: a movement callback targeting the cell the player already occupies
is a complete no-op: movePlayerToCell returns the state unchanged (player,
hand, override store, storage, active set) and performs none of its side
effects: no pan, no saveState write, no refreshVisibleGrid run, no status
update. -/
theorem self_move_noop (w : Window) (s : GameState) :
    movePlayerToCell w s s.playerCell = (s, []) := by
  simp [movePlayerToCell]


/-- C5: persistence round-trip.  For every reachable game state, running
saveState and then loadState restores the player coordinate, the held token
and the override entries exactly. -/
theorem persistence_roundtrip (luck : String → ℚ) (s : GameState)
    (h : Reachable luck s) :
    (loadState (saveState s)).playerCell = s.playerCell ∧
    (loadState (saveState s)).heldToken = s.heldToken ∧
    (loadState (saveState s)).cellStates = s.cellStates := by
  have hnd : (mapKeys s.cellStates).Nodup := nodup_reachable luck h
  refine ⟨rfl, rfl, ?_⟩
  have hfold : (loadState (saveState s)).cellStates =
      s.cellStates.foldl (fun m e => mapSet m e.1 e.2) [] := rfl
  rw [hfold]
  have hres := foldl_mapSet_restore s.cellStates [] (by simpa using hnd)
  simpa using hres

/-- Witness for C5: the round-trip restores the initial state exactly. -/
theorem persistence_roundtrip_witness :
    (loadState (saveState initialState)).playerCell = initialState.playerCell ∧
    (loadState (saveState initialState)).heldToken = initialState.heldToken ∧
    (loadState (saveState initialState)).cellStates = initialState.cellStates :=
  persistence_roundtrip luckOne initialState Reachable.init

/-- Counterexample to C6: a stored snapshot with a valid player key and a
corrupt held-token key is corrupt, yet loadState does not fall back to the
full default initial state: the already-parsed player coordinate survives
into a partially restored state. -/
theorem load_fallback_counterexample :
    (loadState { initialState with storage :=
        { player := some (Stored.ok { i := 5, j := 7 })
          held := some Stored.corrupt
          cells := none } }).playerCell = { i := 5, j := 7 } ∧
    ({ i := 5, j := 7 } : CellCoord) ≠ initialState.playerCell := by
  constructor
  · rfl
  · rw [initialState_playerCell]
    decide

/-- C6 amended: if the whole snapshot is absent, loadState only clears the
override store (a no-op when the store is already empty, so startup on the
default initial state stays exactly the default initial state, and the
separately stored movement mode independently falls back to the geolocation
default); but when a present key is corrupt, loadState resets only the
override store and the hand and keeps any player coordinate parsed before
the failure, so a corrupt snapshot can leave a partially restored state
rather than the full default state. -/
theorem load_fallback_amended :
    (∀ s : GameState, s.storage.player = none → s.storage.held = none →
      s.storage.cells = none → loadState s = { s with cellStates := [] }) ∧
    loadState initialState = initialState ∧
    initialMovementMode none none = MovementMode.geolocation ∧
    (∀ (s : GameState) (c : CellCoord),
      s.storage.player = some (Stored.ok c) →
      s.storage.held = some Stored.corrupt →
      loadState s =
        { s with playerCell := c, heldToken := none, cellStates := [] }) := by
  refine ⟨?_, rfl, rfl, ?_⟩
  · intro s hp hh hc
    simp [loadState, hp, hh, hc]
  · intro s c hp hh
    simp [loadState, loadCatch, hp, hh]

/-- Witness for C6 amended: an all-keys-missing snapshot only clears the
(already empty) store of the probe state, while a valid-player / corrupt-held
snapshot restores the player coordinate and resets the rest. -/
theorem load_fallback_amended_witness :
    loadState probeState = { probeState with cellStates := [] } ∧
    loadState corruptProbeState =
      { corruptProbeState with
        playerCell := { i := 5, j := 7 }
        heldToken := none
        cellStates := [] } :=
  ⟨load_fallback_amended.1 probeState rfl rfl rfl,
    load_fallback_amended.2.2.2 corruptProbeState { i := 5, j := 7 } rfl rfl⟩

/-- Counterexample to C7: feeding the tracked movement source two identical
raw positions makes it invoke its callback twice with the same cell; the
delivered-cell list is not duplicate-free, whereas the claim says the second
(duplicate) update produces no invocation. -/
theorem geo_no_coalescing_counterexample :
    geoDeliveredCells [((0 : ℚ), (0 : ℚ)), ((0 : ℚ), (0 : ℚ))] =
      [{ i := 0, j := 0 }, { i := 0, j := 0 }] ∧
    ¬ List.Chain' (fun a b : CellCoord => a ≠ b)
      (geoDeliveredCells [((0 : ℚ), (0 : ℚ)), ((0 : ℚ), (0 : ℚ))]) := by
  have h : geoDeliveredCells [((0 : ℚ), (0 : ℚ)), ((0 : ℚ), (0 : ℚ))] =
      [{ i := 0, j := 0 }, { i := 0, j := 0 }] := by
    simp [geoDeliveredCells, latLngToCellCoord_zero]
  refine ⟨h, ?_⟩
  rw [h]
  simp [List.chain'_cons]

/-- C7 amended: the tracked source converts and delivers every raw position
to its onMoveTo callback unconditionally (no coalescing at the source);
duplicate consecutive updates are absorbed downstream by the self-move guard
of movePlayerToCell, so the resulting game state is the same as if the
duplicate had not been delivered. -/
theorem geo_duplicate_absorbed_downstream (w : Window) (s : GameState)
    (xs ys : List (ℚ × ℚ)) (p : ℚ × ℚ) :
    geoDeliveredCells (xs ++ p :: p :: ys) =
      geoDeliveredCells xs ++
        latLngToCellCoord p.1 p.2 :: latLngToCellCoord p.1 p.2 ::
          geoDeliveredCells ys ∧
    runGeoFeed w s (xs ++ p :: p :: ys) = runGeoFeed w s (xs ++ p :: ys) := by
  have hplayer : ∀ (st : GameState) (c : CellCoord),
      ((movePlayerToCell w st c).1).playerCell = c := by
    intro st c
    by_cases hc : c = st.playerCell
    · simp [movePlayerToCell, hc]
    · simp [movePlayerToCell, hc, refreshGridState, saveState]
  have habsorb : ∀ (st : GameState) (c : CellCoord),
      (movePlayerToCell w ((movePlayerToCell w st c).1) c).1 =
        (movePlayerToCell w st c).1 := by
    intro st c
    have h := hplayer st c
    generalize hX : (movePlayerToCell w st c).1 = X at h ⊢
    simp [movePlayerToCell, h]
  constructor
  · simp [geoDeliveredCells]
  · simp only [runGeoFeed, geoDeliveredCells, List.map_append, List.map_cons,
      List.foldl_append, List.foldl_cons]
    rw [habsorb]

/-- C8: the power-of-two invariant.  Starting from an empty hand and an
empty override store (so every cell shows its base value, 0 or 1), after any
sequence of clicks (each at an arbitrary player position), every cell value
is zero or a power of two and any held token is a power of two. -/
theorem power_of_two_invariant (luck : String → ℚ) (s0 : GameState)
    (hstates : s0.cellStates = []) (hheld0 : s0.heldToken = none)
    (ops : List (CellCoord × CellCoord)) :
    (∀ c, isTokenLike (getCellValue luck (applyClicks luck ops s0) c)) ∧
    (∀ h : ℤ, (applyClicks luck ops s0).heldToken = some h →
      ∃ k : ℕ, h = 2 ^ k) := by
  have hbase : (∀ q, isTokenLike (getCellValue luck s0 q)) ∧
      (∀ h : ℤ, s0.heldToken = some h → ∃ k : ℕ, h = 2 ^ k) := by
    constructor
    · intro q
      rw [isTokenLike_iff, getCellValue, hstates]
      simp only [mapGet]
      by_cases hr : luck (cellSeed q) < BASE_TOKEN_PROBABILITY
      · right
        exact ⟨0, by simp [baseTokenValue, hr]⟩
      · left
        simp [baseTokenValue, hr]
    · intro h hh
      rw [hheld0] at hh
      cases hh
  have hstep : ∀ (t : GameState) (c : CellCoord),
      ((∀ q, isTokenLike (getCellValue luck t q)) ∧
        (∀ h : ℤ, t.heldToken = some h → ∃ k : ℕ, h = 2 ^ k)) →
      ((∀ q, isTokenLike (getCellValue luck (handleCellClick luck t c) q)) ∧
        (∀ h : ℤ, (handleCellClick luck t c).heldToken = some h →
          ∃ k : ℕ, h = 2 ^ k)) := by
    intro t c hQ
    by_cases hn : isNearPlayer c t.playerCell = true
    · cases hh : t.heldToken with
      | none =>
          by_cases hv : 0 < getCellValue luck t c
          · have hcl : handleCellClick luck t c =
                saveState (setCellValue luck
                  { t with heldToken := some (getCellValue luck t c) } c 0) := by
              simp [handleCellClick, hn, hh, hv]
            rw [hcl]
            constructor
            · intro q
              rw [getCellValue_saveState, getCellValue_setCellValue]
              by_cases hq : q = c
              · rw [if_pos hq, isTokenLike_iff]
                exact Or.inl rfl
              · rw [if_neg hq, getCellValue_update_held]
                exact hQ.1 q
            · intro h2 hh2
              have hproj : (saveState (setCellValue luck
                  { t with heldToken := some (getCellValue luck t c) } c 0)).heldToken =
                  some (getCellValue luck t c) := rfl
              rw [hproj] at hh2
              have hinj := Option.some.inj hh2
              rcases (isTokenLike_iff _).mp (hQ.1 c) with h0 | ⟨k, hk⟩
              · rw [h0] at hv
                exact absurd hv (lt_irrefl 0)
              · exact ⟨k, by rw [← hinj, hk]⟩
          · have hcl : handleCellClick luck t c = t := by
              simp [handleCellClick, hn, hh, hv]
            rw [hcl]
            exact hQ
      | some h =>
          by_cases hv : getCellValue luck t c = 0
          · have hcl : handleCellClick luck t c =
                saveState { setCellValue luck t c h with heldToken := none } := by
              simp [handleCellClick, hn, hh, hv]
            rw [hcl]
            constructor
            · intro q
              have hval : getCellValue luck (saveState
                  { setCellValue luck t c h with heldToken := none }) q =
                  getCellValue luck (setCellValue luck t c h) q := rfl
              rw [hval, getCellValue_setCellValue]
              by_cases hq : q = c
              · rw [if_pos hq, isTokenLike_iff]
                rcases hQ.2 h hh with ⟨k, hk⟩
                exact Or.inr ⟨k, hk⟩
              · rw [if_neg hq]
                exact hQ.1 q
            · intro h2 hh2
              exact Option.noConfusion hh2
          · by_cases hvh : getCellValue luck t c = h
            · have hcl : handleCellClick luck t c =
                  saveState { setCellValue luck t c 0 with
                    heldToken := some (h * 2) } := by
                have hz : ¬ (h = 0) := fun h0 => hv (hvh.trans h0)
                simp [handleCellClick, hn, hh, hv, hvh, hz]
              rw [hcl]
              constructor
              · intro q
                have hval : getCellValue luck (saveState
                    { setCellValue luck t c 0 with heldToken := some (h * 2) }) q =
                    getCellValue luck (setCellValue luck t c 0) q := rfl
                rw [hval, getCellValue_setCellValue]
                by_cases hq : q = c
                · rw [if_pos hq, isTokenLike_iff]
                  exact Or.inl rfl
                · rw [if_neg hq]
                  exact hQ.1 q
              · intro h2 hh2
                have hproj : (saveState { setCellValue luck t c 0 with
                    heldToken := some (h * 2) }).heldToken = some (h * 2) := rfl
                rw [hproj] at hh2
                have hinj := Option.some.inj hh2
                rcases hQ.2 h hh with ⟨k, hk⟩
                exact ⟨k + 1, by rw [← hinj, hk]; ring⟩
            · have hcl : handleCellClick luck t c = t := by
                simp [handleCellClick, hn, hh, hv, hvh]
              rw [hcl]
              exact hQ
    · have hn2 : isNearPlayer c t.playerCell = false := by
        cases hb : isNearPlayer c t.playerCell
        · rfl
        · exact absurd hb hn
      have hcl : handleCellClick luck t c = t := by
        simp [handleCellClick, hn2]
      rw [hcl]
      exact hQ
  have main : ∀ (l : List (CellCoord × CellCoord)) (s : GameState),
      ((∀ q, isTokenLike (getCellValue luck s q)) ∧
        (∀ h : ℤ, s.heldToken = some h → ∃ k : ℕ, h = 2 ^ k)) →
      ((∀ q, isTokenLike (getCellValue luck (applyClicks luck l s) q)) ∧
        (∀ h : ℤ, (applyClicks luck l s).heldToken = some h →
          ∃ k : ℕ, h = 2 ^ k)) := by
    intro l
    induction l with
    | nil =>
        intro s hQ
        simpa [applyClicks] using hQ
    | cons op t ih =>
        intro s hQ
        have hrw : applyClicks luck (op :: t) s =
            applyClicks luck t
              (handleCellClick luck { s with playerCell := op.1 } op.2) := rfl
        rw [hrw]
        exact ih _ (hstep { s with playerCell := op.1 } op.2
          ⟨fun q => hQ.1 q, fun h hh => hQ.2 h hh⟩)
  exact main ops s0 hbase

/-- Witness for C8: one pickup click at the origin under the all-token
oracle keeps the origin cell token-like and the hand a power of two. -/
theorem power_of_two_invariant_witness :
    probeState.cellStates = [] ∧ probeState.heldToken = none ∧
    isTokenLike (getCellValue luckZero
      (applyClicks luckZero [({ i := 0, j := 0 }, { i := 0, j := 0 })] probeState)
      { i := 0, j := 0 }) ∧
    (applyClicks luckZero [({ i := 0, j := 0 }, { i := 0, j := 0 })]
      probeState).heldToken = some 1 ∧
    (∃ k : ℕ, (1 : ℤ) = 2 ^ k) := by
  refine ⟨rfl, rfl, ?_, by decide, ?_⟩
  · exact (power_of_two_invariant luckZero probeState rfl rfl
      [({ i := 0, j := 0 }, { i := 0, j := 0 })]).1 { i := 0, j := 0 }
  · exact (power_of_two_invariant luckZero probeState rfl rfl
      [({ i := 0, j := 0 }, { i := 0, j := 0 })]).2 1 (by decide)

end WorldOfBits
